import Mathlib

/-!
Shallow embedding of the credential-pool / orchestrator / cache core of the
spotify-backend repository.

The source of truth is:
- `src/utils/apiKeyManager.js` (class `ApiKeyManager`): per-key status records,
  `getCurrentKey`, `markCurrentKeyAsExhausted`, `markCurrentKeyError`,
  `resetCurrentKeyErrors`, `rotateToNextKey`, `shouldResetKey`,
  `calculateResetTime`, `isQuotaError`, `isInvalidKeyError`, `handleApiError`;
- the YouTube controller module (`makeApiRequestWithKeyRotation`,
  `getCachedOrFetch`, and the `lru-cache` instance).

Timestamps are milliseconds since the epoch, modelled as `Nat` (a JS `Date`
compares by its epoch milliseconds).  Stateful methods are modelled as
functions from the manager state to a pair of the post-call state and the
returned value; a method that can throw returns `Except PoolError String`
together with the state as committed at the moment of the throw, matching
JS semantics in which mutations performed before a `throw` stand.
-/

/-- One entry of the `keyStatus` map of `ApiKeyManager` (constructor, lines
initialising `key`, `isActive`, `failCount`, `lastError`, `lastUsed`,
`quotaExceeded`, `resetTime`). -/
structure KeyStatus where
  key : String
  isActive : Bool
  failCount : Nat
  lastError : Option String
  lastUsed : Option Nat
  quotaExceeded : Bool
  resetTime : Option Nat
deriving DecidableEq

/-- The mutable state of `ApiKeyManager`: the ordered key list together with
its status map (the map keys are exactly the indices `0..n-1`, so the pair
`apiKeys`/`keyStatus` collapses to one list), plus `currentKeyIndex`. -/
structure ApiKeyManager where
  keys : List KeyStatus
  currentKeyIndex : Nat
deriving DecidableEq

/-- The single error thrown by `rotateToNextKey` when no key is eligible
(source: `throw new Error('Todas las API keys están agotadas...')`). -/
inductive PoolError where
  | allExhausted
deriving DecidableEq

/-- Value `keyStatus.get(i)` would yield for an absent index; only reachable
from invalid states (in JS this would be `undefined`). -/
def defaultKeyStatus : KeyStatus :=
  { key := "", isActive := false, failCount := 0, lastError := none,
    lastUsed := none, quotaExceeded := false, resetTime := none }

/-- Total positional lookup into the status list (`keyStatus.get(i)`). -/
def nthKey : List KeyStatus → Nat → KeyStatus
  | [], _ => defaultKeyStatus
  | s :: _, 0 => s
  | _ :: t, i + 1 => nthKey t i

/-- Positional replacement in the status list (`keyStatus.get(i)` mutation /
`keyStatus.set(i, ...)`); a no-op out of range. -/
def setNth : List KeyStatus → Nat → KeyStatus → List KeyStatus
  | [], _, _ => []
  | _ :: t, 0, v => v :: t
  | s :: t, i + 1, v => s :: setNth t i v

/-- `this.keyStatus.get(i)` on a manager. -/
def statusAt (m : ApiKeyManager) (i : Nat) : KeyStatus :=
  nthKey m.keys i

/-- `this.keyStatus.get(this.currentKeyIndex)`. -/
def getStatus (m : ApiKeyManager) : KeyStatus :=
  statusAt m m.currentKeyIndex

/-- Overwrite the status record at position `i`. -/
def setStatus (m : ApiKeyManager) (i : Nat) (s : KeyStatus) : ApiKeyManager :=
  { m with keys := setNth m.keys i s }

def msPerHour : Nat := 3600000

def msPerDay : Nat := 86400000

/-- `calculateResetTime()`: copies `now`, does `setUTCHours(8, 0, 0, 0)`
(millisecond instant `8h` into the current UTC day), and advances one day when
that instant has already passed (`if (now >= resetTime) setDate(getDate()+1)`). -/
def calculateResetTime (now : Nat) : Nat :=
  let base := now / msPerDay * msPerDay + 8 * msPerHour
  if base ≤ now then base + msPerDay else base

/-- `shouldResetKey(status)`: false without a `resetTime`, otherwise
`new Date() >= status.resetTime`. -/
def shouldResetKey (s : KeyStatus) (now : Nat) : Bool :=
  match s.resetTime with
  | none => false
  | some t => t ≤ now

/-- `getCurrentKey()`: reads the current status record, stamps `lastUsed`,
returns the stored key value.  No eligibility check of any kind. -/
def getCurrentKey (now : Nat) (m : ApiKeyManager) : ApiKeyManager × String :=
  let s := getStatus m
  (setStatus m m.currentKeyIndex { s with lastUsed := some now }, s.key)

/-- `resetCurrentKeyErrors()`: zero `failCount`, clear `lastError`. -/
def resetCurrentKeyErrors (m : ApiKeyManager) : ApiKeyManager :=
  let s := getStatus m
  setStatus m m.currentKeyIndex { s with failCount := 0, lastError := none }

/-- Body of the `do ... while` loop of `rotateToNextKey`, with the remaining
iteration budget made explicit as `fuel` (the loop performs at most
`apiKeys.length` iterations because it recurses only while
`attempts < apiKeys.length` after incrementing `attempts`, so
`fuel = apiKeys.length` from the entry point makes the `0` case unreachable). -/
def rotateGo (now startIndex : Nat) : Nat → Nat → ApiKeyManager → ApiKeyManager × Except PoolError String
  | _, 0, m => (m, .error .allExhausted)
  | attempts, fuel + 1, m =>
    let n := m.keys.length
    let idx := (m.currentKeyIndex + 1) % n
    let m1 := { m with currentKeyIndex := idx }
    let s := statusAt m1 idx
    if s.isActive && !s.quotaExceeded then
      (m1, .ok s.key)
    else if s.quotaExceeded && shouldResetKey s now then
      let s1 := { s with quotaExceeded := false, isActive := true, failCount := 0 }
      (setStatus m1 idx s1, .ok s1.key)
    else if idx ≠ startIndex ∧ attempts + 1 < n then
      rotateGo now startIndex (attempts + 1) fuel m1
    else
      (m1, .error .allExhausted)

/-- `rotateToNextKey()`: remember `startIndex`, scan circularly; an active,
not-quota-exceeded key is selected; a quota-exceeded key whose reset instant
has passed is reactivated (`quotaExceeded := false`, `isActive := true`,
`failCount := 0` — `resetTime` is left as it was) and selected; otherwise the
scan continues while `currentKeyIndex !== startIndex && attempts < n`; when
the scan ends without a selection, `AllCredentialsExhausted` is thrown. -/
def rotateToNextKey (now : Nat) (m : ApiKeyManager) : ApiKeyManager × Except PoolError String :=
  rotateGo now m.currentKeyIndex 0 m.keys.length m

/-- `markCurrentKeyAsExhausted(error)`: mark the current record
(`quotaExceeded`, `isActive := false`, `lastError`, `resetTime`), then
delegate to `rotateToNextKey`. -/
def markCurrentKeyAsExhausted (err : String) (now : Nat) (m : ApiKeyManager) :
    ApiKeyManager × Except PoolError String :=
  let s := getStatus m
  let marked := { s with quotaExceeded := true, isActive := false, lastError := some err, resetTime := some (calculateResetTime now) }
  rotateToNextKey now (setStatus m m.currentKeyIndex marked)

/-- `markCurrentKeyError(error)`: bump `failCount`, record `lastError`; at
`failCount >= 3` the key is deactivated and rotation runs, otherwise the
(unchanged) key value is returned. -/
def markCurrentKeyError (err : String) (now : Nat) (m : ApiKeyManager) :
    ApiKeyManager × Except PoolError String :=
  let s := getStatus m
  let s1 := { s with failCount := s.failCount + 1, lastError := some err }
  if s1.failCount ≥ 3 then
    rotateToNextKey now (setStatus m m.currentKeyIndex { s1 with isActive := false })
  else
    (setStatus m m.currentKeyIndex s1, .ok s1.key)

/-- The shape of an upstream (axios) error as the manager and the controller
read it: `error.message`, `error.response?.status`,
`error.response?.data?.error?.code`, `error.response?.data?.error?.message`. -/
structure ApiError where
  message : String
  respStatus : Option Nat
  respErrorCode : Option Nat
  respErrorMessage : Option String
deriving DecidableEq

/-- JS `a || b` over strings: the first operand unless it is falsy (empty). -/
def firstTruthy (o : Option String) (d : String) : String :=
  match o with
  | some s => if s.isEmpty then d else s
  | none => d

/-- `error.response?.data?.error?.message || error.message || ''`. -/
def errMessage (e : ApiError) : String :=
  firstTruthy e.respErrorMessage e.message

/-- Prefix match on character lists (helper for JS `String.includes`). -/
def charsMatch : List Char → List Char → Bool
  | [], _ => true
  | _ :: _, [] => false
  | a :: as, b :: bs => a == b && charsMatch as bs

/-- Substring search on character lists (helper for JS `String.includes`). -/
def charsFind (pat : List Char) : List Char → Bool
  | [] => charsMatch pat []
  | b :: bs => charsMatch pat (b :: bs) || charsFind pat bs

/-- JS `s.includes(pat)`. -/
def strIncludes (s pat : String) : Bool :=
  charsFind pat.toList s.toList

/-- JS `s.toLowerCase()` (character-wise, which covers the ASCII keywords the
classifier compares against). -/
def toLowerStr (s : String) : String :=
  String.mk (s.toList.map Char.toLower)

/-- `isQuotaError(error)`: payload error code `403`, or the lower-cased
message contains "quota", "exceeded" or "limit". -/
def isQuotaError (e : ApiError) : Bool :=
  e.respErrorCode == some 403
  || strIncludes (toLowerStr (errMessage e)) ("quota")
  || strIncludes (toLowerStr (errMessage e)) ("exceeded")
  || strIncludes (toLowerStr (errMessage e)) ("limit")

/-- `isInvalidKeyError(error)`: the lower-cased message contains "api key",
"invalid" or "unregistered". -/
def isInvalidKeyError (e : ApiError) : Bool :=
  strIncludes (toLowerStr (errMessage e)) ("api key")
  || strIncludes (toLowerStr (errMessage e)) ("invalid")
  || strIncludes (toLowerStr (errMessage e)) ("unregistered")

/-- `handleApiError(error)` on the manager: quota errors first
(`markCurrentKeyAsExhausted(error.message)`), then invalid-key errors
(`markCurrentKeyError(error.message)`), otherwise `getCurrentKey()`. -/
def handleApiError (e : ApiError) (now : Nat) (m : ApiKeyManager) :
    ApiKeyManager × Except PoolError String :=
  if isQuotaError e then
    markCurrentKeyAsExhausted e.message now m
  else if isInvalidKeyError e then
    markCurrentKeyError e.message now m
  else
    let r := getCurrentKey now m
    (r.1, .ok r.2)

/-- Outcome of one `makeApiRequestWithKeyRotation` run: the final pool state,
the value returned or the error thrown (`.error none` is the `throw lastError`
with `lastError` still `null`, reachable only with `maxRetries = 0`), and the
number of remote attempts that were made. -/
structure RunResult where
  mgr : ApiKeyManager
  result : Except (Option ApiError) Nat
  attempts : Nat

/-- The `for` loop of `makeApiRequestWithKeyRotation`, by recursion on the
remaining attempts.  `call i k` is the outcome of the `axios.get` of attempt
`i` performed with key value `k`.  On success `markRequestSuccess()` runs
(`resetCurrentKeyErrors`).  On failure with HTTP status 429 or 403 the
controller-level `handleApiError` runs inside `try { ... } catch (e) { }`:
every exception from it — including `AllCredentialsExhausted` raised by the
pool — is caught and discarded, only its committed state mutations survive;
then the loop continues when attempts remain (`attempt < maxRetries - 1`,
i.e. `0 < remaining` here) and otherwise rethrows the upstream error.  Any
other failure is rethrown at once. -/
def runLoop (call : Nat → String → Except ApiError Nat) (now : Nat) :
    Nat → Nat → Option ApiError → ApiKeyManager → RunResult
  | 0, made, lastErr, m => ⟨m, .error lastErr, made⟩
  | remaining + 1, made, _, m =>
    let r := getCurrentKey now m
    match call made r.2 with
    | .ok v => ⟨resetCurrentKeyErrors r.1, .ok v, made + 1⟩
    | .error e =>
      if e.respStatus = some 429 ∨ e.respStatus = some 403 then
        let h := handleApiError e now r.1
        if 0 < remaining then
          runLoop call now remaining (made + 1) (some e) h.1
        else
          ⟨h.1, .error (some e), made + 1⟩
      else
        ⟨r.1, .error (some e), made + 1⟩

/-- `makeApiRequestWithKeyRotation(url, params, maxRetries)`; the url/params
pair is abstracted into `call`, the per-attempt remote outcome. -/
def makeApiRequestWithKeyRotation (call : Nat → String → Except ApiError Nat)
    (maxRetries : Nat) (now : Nat) (m : ApiKeyManager) : RunResult :=
  runLoop call now maxRetries 0 none m

/-- One stored entry of the `lru-cache` instance. -/
structure CacheEntry (V : Type) where
  key : String
  val : V
  storedAt : Nat
deriving DecidableEq

/-- The controller `cache` (`new LRUCache({ max: 500, ttl: ..., updateAgeOnGet:
true })`): entries kept most-recently-used first. -/
structure LRUCache (V : Type) where
  entries : List (CacheEntry V)
  maxEntries : Nat
  ttl : Nat
deriving DecidableEq

/-- Entry stored under `k`, if any. -/
def cacheFind {V : Type} (c : LRUCache V) (k : String) : Option (CacheEntry V) :=
  c.entries.find? (fun e => e.key == k)

/-- Observable result of `cache.get(k)` at time `now`: the stored value when
present and unexpired, otherwise `undefined` (an expired entry behaves as
absent). -/
def cacheGet {V : Type} (now : Nat) (c : LRUCache V) (k : String) : Option V :=
  match cacheFind c k with
  | some e => if now < e.storedAt + c.ttl then some e.val else none
  | none => none

/-- State effect of a `cache.get(k)` hit with `updateAgeOnGet: true`: the
entry moves to most-recent position with its age refreshed; a miss leaves the
visible contents unchanged. -/
def cacheTouch {V : Type} (now : Nat) (c : LRUCache V) (k : String) : LRUCache V :=
  match cacheFind c k with
  | some e =>
    if now < e.storedAt + c.ttl then
      { c with entries := { e with storedAt := now } :: c.entries.filter (fun x => x.key != k) }
    else c
  | none => c

/-- `cache.set(k, v)`: the entry becomes most recent with `storedAt = now`,
replacing any previous entry under `k`; the least-recently-used entries beyond
`max` are evicted. -/
def cacheSet {V : Type} (now : Nat) (c : LRUCache V) (k : String) (v : V) : LRUCache V :=
  { c with entries := (CacheEntry.mk k v now :: c.entries.filter (fun x => x.key != k)).take c.maxEntries }

/-- `getCachedOrFetch(cacheKey, fetchFunction)`: `cache.get`; on a (truthy)
hit return the cached value; otherwise run the fetcher — a thrown error
propagates with no `cache.set` performed — and store the successful result. -/
def getCachedOrFetch {V E : Type} (now : Nat) (c : LRUCache V) (k : String)
    (fetch : Except E V) : LRUCache V × Except E V :=
  match cacheGet now c k with
  | some v => (cacheTouch now c k, .ok v)
  | none =>
    match fetch with
    | .error err => (c, .error err)
    | .ok v => (cacheSet now c k v, .ok v)

/-- A freshly loaded key record, as built by the `ApiKeyManager` constructor. -/
def mkActive (name : String) : KeyStatus :=
  { key := name, isActive := true, failCount := 0, lastError := none,
    lastUsed := none, quotaExceeded := false, resetTime := none }

/-- A pool as built by the constructor from the configured key values. -/
def mkPool (names : List String) : ApiKeyManager :=
  ⟨names.map mkActive, 0⟩

/-! ## Basic frame lemmas about positional lookup and update -/

theorem length_setNth (l : List KeyStatus) (i : Nat) (v : KeyStatus) :
    (setNth l i v).length = l.length := by
  induction l generalizing i with
  | nil => rfl
  | cons a t ih =>
    cases i with
    | zero => rfl
    | succ j => simpa [setNth] using ih j

theorem nthKey_setNth_self (l : List KeyStatus) (i : Nat) (v : KeyStatus)
    (h : i < l.length) : nthKey (setNth l i v) i = v := by
  induction l generalizing i with
  | nil => simp at h
  | cons a t ih =>
    cases i with
    | zero => rfl
    | succ j => simpa [setNth, nthKey] using ih j (by simpa using h)

theorem nthKey_setNth_ne (l : List KeyStatus) (i j : Nat) (v : KeyStatus)
    (h : j ≠ i) : nthKey (setNth l i v) j = nthKey l j := by
  induction l generalizing i j with
  | nil => cases i <;> rfl
  | cons a t ih =>
    cases i with
    | zero =>
      cases j with
      | zero => exact absurd rfl h
      | succ jj => rfl
    | succ ii =>
      cases j with
      | zero => rfl
      | succ jj => simpa [setNth, nthKey] using ih ii jj (fun hc => h (by simpa using hc))

/-- The computed quota reset instant lies strictly in the future. -/
theorem lt_calculateResetTime (now : Nat) : now < calculateResetTime now := by
  simp only [calculateResetTime, msPerDay, msPerHour]
  split <;> omega

/-- Claim C8: for every instant `now`, `calculateResetTime now` is strictly
after `now`, its UTC time-of-day is exactly 08:00:00.000 (that is, it is
congruent to 28800000 ms modulo the 86400000 ms day — midnight at the fixed
UTC-8 reference offset), and it is the next such occurrence: it lies within
24 hours after `now`. -/
theorem claim_C8_next_reset_epoch (now : Nat) :
    now < calculateResetTime now
    ∧ calculateResetTime now % 86400000 = 28800000
    ∧ calculateResetTime now ≤ now + 86400000 := by
  refine ⟨lt_calculateResetTime now, ?_, ?_⟩ <;>
    · simp only [calculateResetTime, msPerDay, msPerHour]
      split <;> omega

/-- Claim C10: `getCurrentKey` performs no eligibility check — it returns the
key value stored at the current index whatever the status flags say, and its
only mutation is the `lastUsed` stamp of that one record: the current index is
unchanged, every other record is unchanged, and the current record changes in
no field but `lastUsed`. -/
theorem claim_C10_current_no_check (m : ApiKeyManager) (now : Nat)
    (h : m.currentKeyIndex < m.keys.length) :
    getCurrentKey now m
      = (setStatus m m.currentKeyIndex { statusAt m m.currentKeyIndex with lastUsed := some now },
         (statusAt m m.currentKeyIndex).key)
    ∧ (getCurrentKey now m).1.currentKeyIndex = m.currentKeyIndex
    ∧ (∀ j, j ≠ m.currentKeyIndex → statusAt (getCurrentKey now m).1 j = statusAt m j)
    ∧ statusAt (getCurrentKey now m).1 m.currentKeyIndex
        = { statusAt m m.currentKeyIndex with lastUsed := some now } := by
  refine ⟨rfl, rfl, ?_, ?_⟩
  · intro j hj
    exact nthKey_setNth_ne m.keys m.currentKeyIndex j _ hj
  · exact nthKey_setNth_self m.keys m.currentKeyIndex _ h

/-- A one-key pool whose only credential is quota-exceeded and inactive. -/
def mgrQ : ApiKeyManager :=
  ⟨[{ key := "q", isActive := false, failCount := 2, lastError := some ("boom"),
      lastUsed := none, quotaExceeded := true, resetTime := some 99 }], 0⟩

/-- Witness for C10 at a pool whose current credential is QuotaExceeded and
inactive: its value is still returned and only `lastUsed` changes. -/
theorem claim_C10_witness :
    getCurrentKey 5 mgrQ
      = (setStatus mgrQ mgrQ.currentKeyIndex { statusAt mgrQ mgrQ.currentKeyIndex with lastUsed := some 5 },
         (statusAt mgrQ mgrQ.currentKeyIndex).key)
    ∧ (getCurrentKey 5 mgrQ).1.currentKeyIndex = mgrQ.currentKeyIndex
    ∧ (∀ j, j ≠ mgrQ.currentKeyIndex → statusAt (getCurrentKey 5 mgrQ).1 j = statusAt mgrQ j)
    ∧ statusAt (getCurrentKey 5 mgrQ).1 mgrQ.currentKeyIndex
        = { statusAt mgrQ mgrQ.currentKeyIndex with lastUsed := some 5 } :=
  claim_C10_current_no_check mgrQ 5 (by decide)

/-- Claim C6: a present, unexpired cache entry is returned as is and the
fetcher result is irrelevant (it is not invoked); on a miss the fetcher runs,
a fetcher error propagates with the cache contents unchanged (nothing is
stored under the key), and only a successful result is stored. -/
theorem claim_C6_cache_get_or_fetch {V E : Type} (now : Nat) (c : LRUCache V) (k : String) :
    (∀ v : V, cacheGet now c k = some v →
       ∀ fetch : Except E V, getCachedOrFetch now c k fetch = (cacheTouch now c k, .ok v))
    ∧ (cacheGet now c k = none →
       (∀ err : E, getCachedOrFetch now c k (.error err) = (c, .error err))
       ∧ (∀ v : V, getCachedOrFetch now c k (Except.ok v : Except E V) = (cacheSet now c k v, .ok v))) := by
  constructor
  · intro v hv fetch
    simp [getCachedOrFetch, hv]
  · intro hmiss
    constructor <;> intro x <;> simp [getCachedOrFetch, hmiss]

/-- A concrete cache holding `7` under key `k1`, stored at time `10`,
TTL `100`. -/
def cacheW : LRUCache Nat :=
  ⟨[⟨"k1", 7, 10⟩], 500, 100⟩

/-- Witness for C6 at time `50`: key `k1` is a fresh hit (the failing fetcher
is ignored), key `k2` is a miss (a fetcher error leaves the cache unchanged
and propagates; a fetcher success is stored). -/
theorem claim_C6_witness :
    getCachedOrFetch 50 cacheW ("k1") (Except.error ("boom")) = (cacheTouch 50 cacheW ("k1"), .ok 7)
    ∧ getCachedOrFetch 50 cacheW ("k2") (Except.error ("boom")) = (cacheW, Except.error ("boom"))
    ∧ getCachedOrFetch 50 cacheW ("k2") (Except.ok 9 : Except String Nat)
        = (cacheSet 50 cacheW ("k2") 9, .ok 9) :=
  ⟨(claim_C6_cache_get_or_fetch 50 cacheW ("k1")).1 7 (by rfl) (Except.error ("boom")),
   ((@claim_C6_cache_get_or_fetch Nat String 50 cacheW ("k2")).2 (by rfl)).1 ("boom"),
   ((@claim_C6_cache_get_or_fetch Nat String 50 cacheW ("k2")).2 (by rfl)).2 9⟩

/-- Claim C4: the classifier reports a quota error whenever the payload error
code is 403 or the (lower-cased) upstream message contains "quota", "limit"
or "exceeded"; and an error matching both the quota patterns and the
invalid-credential patterns is handled on the quota path
(`markCurrentKeyAsExhausted`, which marks and rotates), never on the
invalid-credential path, because `handleApiError` tests `isQuotaError`
first. -/
theorem claim_C4_quota_first (e : ApiError) :
    ((e.respErrorCode = some 403
      ∨ strIncludes (toLowerStr (errMessage e)) ("quota") = true
      ∨ strIncludes (toLowerStr (errMessage e)) ("limit") = true
      ∨ strIncludes (toLowerStr (errMessage e)) ("exceeded") = true)
     → isQuotaError e = true)
    ∧ (∀ (m : ApiKeyManager) (now : Nat), isQuotaError e = true → isInvalidKeyError e = true →
        handleApiError e now m = markCurrentKeyAsExhausted e.message now m) := by
  constructor
  · intro h
    rcases h with h | h | h | h <;> simp [isQuotaError, h]
  · intro m now hq _
    simp [handleApiError, hq]

/-- An upstream error whose message matches both the quota keyword "limit"
and the invalid-credential keyword "invalid", with payload code 400. -/
def errBoth : ApiError :=
  ⟨"limit invalid", some 400, some 400, none⟩

/-- Witness for C4: the overlapping error is classified as quota and handled
by `markCurrentKeyAsExhausted`. -/
theorem claim_C4_witness :
    isQuotaError errBoth = true
    ∧ handleApiError errBoth 3 (mkPool [("a"), ("b")])
        = markCurrentKeyAsExhausted errBoth.message 3 (mkPool [("a"), ("b")]) :=
  ⟨(claim_C4_quota_first errBoth).1 (Or.inr (Or.inr (Or.inl (by decide)))),
   (claim_C4_quota_first errBoth).2 (mkPool [("a"), ("b")]) 3 (by decide) (by decide)⟩

/-! ## C7: failure counting and the Disabled transition -/

/-- Below the threshold, `markCurrentKeyError` only bumps `failCount` and
records `lastError`; the current index stays and the unchanged key value is
returned. -/
theorem markError_below (m : ApiKeyManager) (msg : String) (now : Nat)
    (h : (getStatus m).failCount + 1 < 3) :
    markCurrentKeyError msg now m
      = (setStatus m m.currentKeyIndex
           { getStatus m with failCount := (getStatus m).failCount + 1, lastError := some msg },
         .ok (getStatus m).key) := by
  simp only [markCurrentKeyError]
  rw [if_neg (by omega)]

/-- At the threshold, `markCurrentKeyError` deactivates the current record and
hands over to `rotateToNextKey` in the same call. -/
theorem markError_atLimit (m : ApiKeyManager) (msg : String) (now : Nat)
    (h : (getStatus m).failCount + 1 ≥ 3) :
    markCurrentKeyError msg now m
      = rotateToNextKey now
          (setStatus m m.currentKeyIndex
            { getStatus m with failCount := (getStatus m).failCount + 1, lastError := some msg, isActive := false }) := by
  simp only [markCurrentKeyError]
  rw [if_pos (by omega)]

/-- Claim C7: every `reportFailure` increments `consecutiveFailures` and sets
`lastError`; while the count stays below the threshold 3 the credential
remains current and its value is returned unchanged; the call that brings the
count to 3 or beyond (in particular the third of three consecutive failures
with no intervening `reportSuccess`, exhibited concretely in the witness)
deactivates the credential (Disabled) and triggers rotation in that same
call. -/
theorem claim_C7_failure_threshold (m : ApiKeyManager) (msg : String) (now : Nat) :
    ((getStatus m).failCount + 1 < 3 →
      markCurrentKeyError msg now m
        = (setStatus m m.currentKeyIndex
             { getStatus m with failCount := (getStatus m).failCount + 1, lastError := some msg },
           .ok (getStatus m).key))
    ∧ ((getStatus m).failCount + 1 ≥ 3 →
      markCurrentKeyError msg now m
        = rotateToNextKey now
            (setStatus m m.currentKeyIndex
              { getStatus m with failCount := (getStatus m).failCount + 1, lastError := some msg, isActive := false })) :=
  ⟨markError_below m msg now, markError_atLimit m msg now⟩

/-- A fresh two-key pool for the C7 scenario. -/
def mgrC7 : ApiKeyManager := mkPool [("x"), ("y")]

/-- The pool after one failure report. -/
def mgrC7a : ApiKeyManager := (markCurrentKeyError ("e") 0 mgrC7).1

/-- The pool after two consecutive failure reports. -/
def mgrC7b : ApiKeyManager := (markCurrentKeyError ("e") 0 mgrC7a).1

/-- Witness for C7: three consecutive failure reports on the same fresh
credential — the first two keep it current and return its value unchanged,
the third deactivates it (count 3, Disabled) and rotates. -/
theorem claim_C7_witness :
    markCurrentKeyError ("e") 0 mgrC7
      = (setStatus mgrC7 mgrC7.currentKeyIndex
           { getStatus mgrC7 with failCount := (getStatus mgrC7).failCount + 1, lastError := some ("e") },
         .ok (getStatus mgrC7).key)
    ∧ markCurrentKeyError ("e") 0 mgrC7a
      = (setStatus mgrC7a mgrC7a.currentKeyIndex
           { getStatus mgrC7a with failCount := (getStatus mgrC7a).failCount + 1, lastError := some ("e") },
         .ok (getStatus mgrC7a).key)
    ∧ markCurrentKeyError ("e") 0 mgrC7b
      = rotateToNextKey 0
          (setStatus mgrC7b mgrC7b.currentKeyIndex
            { getStatus mgrC7b with failCount := (getStatus mgrC7b).failCount + 1, lastError := some ("e"), isActive := false })
    ∧ (getStatus mgrC7).key = (getStatus mgrC7a).key
    ∧ mgrC7a.currentKeyIndex = 0 ∧ mgrC7b.currentKeyIndex = 0
    ∧ (getStatus (setStatus mgrC7b mgrC7b.currentKeyIndex
        { getStatus mgrC7b with failCount := (getStatus mgrC7b).failCount + 1, lastError := some ("e"), isActive := false })).isActive = false
    ∧ (getStatus (setStatus mgrC7b mgrC7b.currentKeyIndex
        { getStatus mgrC7b with failCount := (getStatus mgrC7b).failCount + 1, lastError := some ("e"), isActive := false })).failCount = 3 :=
  ⟨(claim_C7_failure_threshold mgrC7 ("e") 0).1 (by decide),
   (claim_C7_failure_threshold mgrC7a ("e") 0).1 (by decide),
   (claim_C7_failure_threshold mgrC7b ("e") 0).2 (by decide),
   by decide, by decide, by decide, by decide, by decide⟩

/-! ## The rotation scan: unfolding and loop invariants -/

/-- One unfolded iteration of the `do ... while` body of `rotateToNextKey`. -/
theorem rotateGo_succ (now start atts fuel : Nat) (m : ApiKeyManager) :
    rotateGo now start atts (fuel + 1) m
      = (if (nthKey m.keys ((m.currentKeyIndex + 1) % m.keys.length)).isActive
            && !(nthKey m.keys ((m.currentKeyIndex + 1) % m.keys.length)).quotaExceeded then
           ({ m with currentKeyIndex := (m.currentKeyIndex + 1) % m.keys.length },
            .ok (nthKey m.keys ((m.currentKeyIndex + 1) % m.keys.length)).key)
         else if (nthKey m.keys ((m.currentKeyIndex + 1) % m.keys.length)).quotaExceeded
            && shouldResetKey (nthKey m.keys ((m.currentKeyIndex + 1) % m.keys.length)) now then
           (setStatus { m with currentKeyIndex := (m.currentKeyIndex + 1) % m.keys.length }
              ((m.currentKeyIndex + 1) % m.keys.length)
              { nthKey m.keys ((m.currentKeyIndex + 1) % m.keys.length) with quotaExceeded := false, isActive := true, failCount := 0 },
            .ok (nthKey m.keys ((m.currentKeyIndex + 1) % m.keys.length)).key)
         else if (m.currentKeyIndex + 1) % m.keys.length ≠ start ∧ atts + 1 < m.keys.length then
           rotateGo now start (atts + 1) fuel
             { m with currentKeyIndex := (m.currentKeyIndex + 1) % m.keys.length }
         else
           ({ m with currentKeyIndex := (m.currentKeyIndex + 1) % m.keys.length },
            .error .allExhausted)) := rfl

/-- A proper circular step from a valid position cannot land back on `start`
before the cycle is complete. -/
theorem step_mod_ne (start c n : Nat) (hs : start < n) (hc0 : 0 < c) (hcn : c < n) :
    (start + c) % n ≠ start := by
  rcases Nat.lt_or_ge (start + c) n with h | h
  · rw [Nat.mod_eq_of_lt h]; omega
  · rw [Nat.mod_eq_sub_mod h, Nat.mod_eq_of_lt (by omega)]; omega

/-- After a full cycle the scan is back at `start`. -/
theorem full_cycle_mod (start n : Nat) (hs : start < n) : (start + n) % n = start := by
  rw [Nat.add_mod_right, Nat.mod_eq_of_lt hs]

/-- A key record the scan can stop at: active and in quota, or quota-exceeded
with its reset instant passed (in which case the scan reactivates it). -/
def eligibleNow (s : KeyStatus) (now : Nat) : Bool :=
  (s.isActive && !s.quotaExceeded) || (s.quotaExceeded && shouldResetKey s now)

/-- The scan never selects, nor touches, a position whose record is not
eligible (not selectable and not reactivatable). -/
theorem rotateGo_skips (now start j : Nat) (fuel : Nat) :
    ∀ (atts : Nat) (m : ApiKeyManager),
      eligibleNow (nthKey m.keys j) now = false →
      nthKey (rotateGo now start atts fuel m).1.keys j = nthKey m.keys j
      ∧ ∀ k, (rotateGo now start atts fuel m).2 = .ok k →
          (rotateGo now start atts fuel m).1.currentKeyIndex ≠ j := by
  induction fuel with
  | zero =>
    intro atts m _
    exact ⟨rfl, fun k hk => absurd hk (by simp [rotateGo])⟩
  | succ f ih =>
    intro atts m hbad
    have hor := Bool.or_eq_false_iff.mp hbad
    rw [rotateGo_succ]
    by_cases h1 : ((nthKey m.keys ((m.currentKeyIndex + 1) % m.keys.length)).isActive
        && !(nthKey m.keys ((m.currentKeyIndex + 1) % m.keys.length)).quotaExceeded) = true
    · rw [if_pos h1]
      refine ⟨rfl, fun k _ hij => ?_⟩
      have hij' : (m.currentKeyIndex + 1) % m.keys.length = j := hij
      rw [hij', hor.1] at h1
      exact Bool.false_ne_true h1
    · rw [if_neg h1]
      by_cases h2 : ((nthKey m.keys ((m.currentKeyIndex + 1) % m.keys.length)).quotaExceeded
          && shouldResetKey (nthKey m.keys ((m.currentKeyIndex + 1) % m.keys.length)) now) = true
      · rw [if_pos h2]
        have hne : (m.currentKeyIndex + 1) % m.keys.length ≠ j := by
          intro hij
          rw [hij] at h2
          rw [hor.2] at h2
          exact Bool.false_ne_true h2
        refine ⟨?_, fun k _ => hne⟩
        exact nthKey_setNth_ne m.keys _ j _ (fun h => hne h.symm)
      · rw [if_neg h2]
        by_cases h3 : (m.currentKeyIndex + 1) % m.keys.length ≠ start ∧ atts + 1 < m.keys.length
        · rw [if_pos h3]
          exact ih (atts + 1) { m with currentKeyIndex := (m.currentKeyIndex + 1) % m.keys.length } hbad
        · rw [if_neg h3]
          exact ⟨rfl, fun k hk => absurd hk (by simp)⟩

/-- When the scan throws `AllCredentialsExhausted`, it has walked the full
cycle: the key list is untouched and the current index is back at `start`. -/
theorem rotateGo_error_curr (now start : Nat) (fuel : Nat) :
    ∀ (atts : Nat) (m m' : ApiKeyManager),
      start < m.keys.length →
      m.currentKeyIndex = (start + atts) % m.keys.length →
      atts < m.keys.length →
      fuel = m.keys.length - atts →
      rotateGo now start atts fuel m = (m', .error .allExhausted) →
      m' = { m with currentKeyIndex := start } := by
  induction fuel with
  | zero => intro atts m m' _ _ h3 h4 _; omega
  | succ f ih =>
    intro atts m m' hs hcur hatts hfuel hrun
    rw [rotateGo_succ] at hrun
    have hidx : (m.currentKeyIndex + 1) % m.keys.length = (start + (atts + 1)) % m.keys.length := by
      rw [hcur, Nat.mod_add_mod, Nat.add_assoc]
    split at hrun
    · exact absurd (congrArg Prod.snd hrun) (by simp)
    · split at hrun
      · exact absurd (congrArg Prod.snd hrun) (by simp)
      · split at hrun
        · rename_i hcond
          have := ih (atts + 1) { m with currentKeyIndex := (m.currentKeyIndex + 1) % m.keys.length } m'
            hs (by simpa using hidx) hcond.2 (by show f = m.keys.length - (atts + 1); omega) hrun
          rw [this]
        · rename_i hcond
          have hstop : (m.currentKeyIndex + 1) % m.keys.length = start := by
            by_cases hlt : atts + 1 < m.keys.length
            · by_contra hne
              exact hcond ⟨hne, hlt⟩
            · have hn : atts + 1 = m.keys.length := by omega
              rw [hidx, hn, full_cycle_mod start m.keys.length hs]
          have hm' : m' = { m with currentKeyIndex := (m.currentKeyIndex + 1) % m.keys.length } :=
            (congrArg Prod.fst hrun).symm
          rw [hm', hstop]

/-- When no position holds an eligible record, the scan walks the whole cycle
and throws, leaving the keys untouched and the index back at `start`. -/
theorem rotateGo_all_dead (now start : Nat) (fuel : Nat) :
    ∀ (atts : Nat) (m : ApiKeyManager),
      start < m.keys.length →
      (∀ i, i < m.keys.length → eligibleNow (nthKey m.keys i) now = false) →
      m.currentKeyIndex = (start + atts) % m.keys.length →
      atts < m.keys.length →
      fuel = m.keys.length - atts →
      rotateGo now start atts fuel m
        = ({ m with currentKeyIndex := start }, .error .allExhausted) := by
  induction fuel with
  | zero => intro atts m _ _ _ h3 h4; omega
  | succ f ih =>
    intro atts m hs hall hcur hatts hfuel
    have hn : 0 < m.keys.length := by omega
    have hidxlt : (m.currentKeyIndex + 1) % m.keys.length < m.keys.length := Nat.mod_lt _ hn
    have hbad := Bool.or_eq_false_iff.mp (hall _ hidxlt)
    have hidx : (m.currentKeyIndex + 1) % m.keys.length = (start + (atts + 1)) % m.keys.length := by
      rw [hcur, Nat.mod_add_mod, Nat.add_assoc]
    rw [rotateGo_succ, if_neg (by rw [hbad.1]; exact Bool.false_ne_true), if_neg (by rw [hbad.2]; exact Bool.false_ne_true)]
    by_cases hlt : atts + 1 < m.keys.length
    · rw [if_pos ⟨by rw [hidx]; exact step_mod_ne start (atts + 1) m.keys.length hs (by omega) hlt, hlt⟩]
      exact ih (atts + 1) { m with currentKeyIndex := (m.currentKeyIndex + 1) % m.keys.length }
        hs hall (by simpa using hidx) hlt (by show f = m.keys.length - (atts + 1); omega)
    · have hcyc : atts + 1 = m.keys.length := by omega
      have hstop : (m.currentKeyIndex + 1) % m.keys.length = start := by
        rw [hidx, hcyc, full_cycle_mod start m.keys.length hs]
      rw [if_neg (fun hc => hc.1 hstop), hstop]

/-- When the key right after the current index is active and within quota,
one rotation step selects it. -/
theorem rotate_select_next (now : Nat) (m : ApiKeyManager)
    (hn : 0 < m.keys.length)
    (h1 : (nthKey m.keys ((m.currentKeyIndex + 1) % m.keys.length)).isActive = true)
    (h2 : (nthKey m.keys ((m.currentKeyIndex + 1) % m.keys.length)).quotaExceeded = false) :
    rotateToNextKey now m
      = ({ m with currentKeyIndex := (m.currentKeyIndex + 1) % m.keys.length },
         .ok (nthKey m.keys ((m.currentKeyIndex + 1) % m.keys.length)).key) := by
  obtain ⟨f, hf⟩ : ∃ f, m.keys.length = f + 1 := ⟨m.keys.length - 1, by omega⟩
  rw [rotateToNextKey, hf, rotateGo_succ, ← hf]
  rw [if_pos (by rw [h1, h2]; rfl)]

/-- When the key right after the current index is quota-exceeded with its
reset instant passed, one rotation step reactivates it in place and selects
it. -/
theorem rotate_reactivate_next (now : Nat) (m : ApiKeyManager)
    (hn : 0 < m.keys.length)
    (hq : (nthKey m.keys ((m.currentKeyIndex + 1) % m.keys.length)).quotaExceeded = true)
    (hr : shouldResetKey (nthKey m.keys ((m.currentKeyIndex + 1) % m.keys.length)) now = true) :
    rotateToNextKey now m
      = (setStatus { m with currentKeyIndex := (m.currentKeyIndex + 1) % m.keys.length }
           ((m.currentKeyIndex + 1) % m.keys.length)
           { nthKey m.keys ((m.currentKeyIndex + 1) % m.keys.length) with quotaExceeded := false, isActive := true, failCount := 0 },
         .ok (nthKey m.keys ((m.currentKeyIndex + 1) % m.keys.length)).key) := by
  obtain ⟨f, hf⟩ : ∃ f, m.keys.length = f + 1 := ⟨m.keys.length - 1, by omega⟩
  rw [rotateToNextKey, hf, rotateGo_succ, ← hf]
  rw [if_neg (by rw [hq]; simp), if_pos (by rw [hq, hr]; rfl)]

/-! ## C2: quota-reset gating of rotation -/

/-- Amended claim C2: (1) a credential that is QuotaExceeded with reset epoch
`R` is, at any instant strictly before `R`, never selected by `rotate()` and
its record is left untouched by the scan; (2) at or after `R`, when the scan
reaches it — here instantiated at the next position after the current index,
which the scan visits first — `rotate()` reactivates it, setting it Active
and zeroing `consecutiveFailures` while leaving `quotaResetAt` in place (the
code does not clear `resetTime` on reactivation), and selects it. -/
theorem claim_C2_quota_reset (now j R : Nat) :
    (∀ m : ApiKeyManager, j < m.keys.length →
      (statusAt m j).quotaExceeded = true → (statusAt m j).resetTime = some R → now < R →
      statusAt (rotateToNextKey now m).1 j = statusAt m j
      ∧ ∀ k, (rotateToNextKey now m).2 = .ok k → (rotateToNextKey now m).1.currentKeyIndex ≠ j)
    ∧ (∀ m : ApiKeyManager, 0 < m.keys.length →
      j = (m.currentKeyIndex + 1) % m.keys.length →
      (statusAt m j).quotaExceeded = true → (statusAt m j).resetTime = some R → R ≤ now →
      rotateToNextKey now m
        = (setStatus { m with currentKeyIndex := j } j
             { statusAt m j with quotaExceeded := false, isActive := true, failCount := 0 },
           .ok (statusAt m j).key)
      ∧ (statusAt (rotateToNextKey now m).1 j).isActive = true
      ∧ (statusAt (rotateToNextKey now m).1 j).quotaExceeded = false
      ∧ (statusAt (rotateToNextKey now m).1 j).failCount = 0
      ∧ (statusAt (rotateToNextKey now m).1 j).resetTime = some R
      ∧ (rotateToNextKey now m).1.currentKeyIndex = j) := by
  constructor
  · intro m hj hq hrt hlt
    have hbad : eligibleNow (nthKey m.keys j) now = false := by
      have hsr : shouldResetKey (nthKey m.keys j) now = false := by
        have : (nthKey m.keys j).resetTime = some R := hrt
        simp [shouldResetKey, this]
        omega
      have hq' : (nthKey m.keys j).quotaExceeded = true := hq
      simp [eligibleNow, hq', hsr]
    exact rotateGo_skips now m.currentKeyIndex j m.keys.length 0 m hbad
  · intro m hn hj hq hrt hle
    have hq' : (nthKey m.keys ((m.currentKeyIndex + 1) % m.keys.length)).quotaExceeded = true := by
      rw [← hj]; exact hq
    have hr : shouldResetKey (nthKey m.keys ((m.currentKeyIndex + 1) % m.keys.length)) now = true := by
      rw [← hj]
      have : (statusAt m j).resetTime = some R := hrt
      simp [shouldResetKey, statusAt] at this ⊢
      rw [this]
      simpa using hle
    have hrot := rotate_reactivate_next now m hn hq' hr
    rw [← hj] at hrot
    have hjlt : j < m.keys.length := by rw [hj]; exact Nat.mod_lt _ hn
    have hsel : statusAt (rotateToNextKey now m).1 j
        = { statusAt m j with quotaExceeded := false, isActive := true, failCount := 0 } := by
      rw [hrot]
      exact nthKey_setNth_self m.keys j _ hjlt
    refine ⟨hrot, ?_, ?_, ?_, ?_, by rw [hrot]; rfl⟩
    · rw [hsel]
    · rw [hsel]
    · rw [hsel]
    · rw [hsel]; exact hrt

/-- A key record marked quota-exceeded with reset epoch `r`. -/
def quotaKey (name : String) (r : Nat) : KeyStatus :=
  { key := name, isActive := false, failCount := 0, lastError := some ("quota"),
    lastUsed := none, quotaExceeded := true, resetTime := some r }

/-- Two keys, the second quota-exceeded with reset epoch 5, currently
selected. -/
def mgrC2x : ApiKeyManager := ⟨[mkActive ("a"), quotaKey ("b") 5], 1⟩

/-- A single quota-exceeded key with reset epoch 5. -/
def mgrC2y : ApiKeyManager := ⟨[quotaKey ("c") 5], 0⟩

/-- Counterexample to claim C2 as stated: at `now = 10`, at or after the reset
epoch `R = 5` of credential 1 of `mgrC2x`, `rotate()` does not reactivate or
select that credential — the scan meets the active credential 0 first and
stops there, credential 1 stays QuotaExceeded.  Moreover where reactivation
does happen (`mgrC2y`), `quotaResetAt` is not cleared: it remains `some 5`. -/
theorem claim_C2_counterexample :
    (5 : Nat) ≤ 10
    ∧ (statusAt mgrC2x 1).quotaExceeded = true
    ∧ (statusAt mgrC2x 1).resetTime = some 5
    ∧ (rotateToNextKey 10 mgrC2x).2 = .ok ("a")
    ∧ (rotateToNextKey 10 mgrC2x).1.currentKeyIndex = 0
    ∧ (statusAt (rotateToNextKey 10 mgrC2x).1 1).quotaExceeded = true
    ∧ (statusAt (rotateToNextKey 10 mgrC2y).1 0).quotaExceeded = false
    ∧ (statusAt (rotateToNextKey 10 mgrC2y).1 0).resetTime = some 5 :=
  ⟨by omega, rfl, rfl, rfl, rfl, rfl, rfl, rfl⟩

/-- Witness for the amended C2: before the epoch (now = 3 < 5) credential 1
of `mgrC2x` is neither selected nor touched; at/after the epoch (now = 10 ≥ 5)
the scan of `mgrC2y` reaches its quota-exceeded key first and reactivates and
selects it, leaving `resetTime` in place. -/
theorem claim_C2_witness :
    (statusAt (rotateToNextKey 3 mgrC2x).1 1 = statusAt mgrC2x 1
     ∧ ∀ k, (rotateToNextKey 3 mgrC2x).2 = .ok k → (rotateToNextKey 3 mgrC2x).1.currentKeyIndex ≠ 1)
    ∧ (rotateToNextKey 10 mgrC2y
        = (setStatus { mgrC2y with currentKeyIndex := 0 } 0
             { statusAt mgrC2y 0 with quotaExceeded := false, isActive := true, failCount := 0 },
           .ok (statusAt mgrC2y 0).key)
       ∧ (statusAt (rotateToNextKey 10 mgrC2y).1 0).isActive = true
       ∧ (statusAt (rotateToNextKey 10 mgrC2y).1 0).quotaExceeded = false
       ∧ (statusAt (rotateToNextKey 10 mgrC2y).1 0).failCount = 0
       ∧ (statusAt (rotateToNextKey 10 mgrC2y).1 0).resetTime = some 5
       ∧ (rotateToNextKey 10 mgrC2y).1.currentKeyIndex = 0) :=
  ⟨(claim_C2_quota_reset 3 1 5).1 mgrC2x (by decide) (by decide) (by decide) (by decide),
   (claim_C2_quota_reset 10 0 5).2 mgrC2y (by decide) (by decide) (by decide) (by decide) (by decide)⟩

/-! ## C9: the exhaustion marking stands when rotation throws -/

/-- Claim C9: when `reportQuotaExhausted` ends in `AllCredentialsExhausted`,
the marking of the current credential has already been committed and is not
rolled back: in the post-throw state that credential is QuotaExceeded and
inactive with `lastError` and `resetTime` set, and the current index is
unchanged — still a valid index, pointing at that non-Active credential. -/
theorem claim_C9_marking_committed (m : ApiKeyManager) (msg : String) (now : Nat)
    (m' : ApiKeyManager)
    (hlen : m.currentKeyIndex < m.keys.length)
    (hrun : markCurrentKeyAsExhausted msg now m = (m', .error .allExhausted)) :
    m' = setStatus m m.currentKeyIndex
           { getStatus m with quotaExceeded := true, isActive := false, lastError := some msg, resetTime := some (calculateResetTime now) }
    ∧ m'.currentKeyIndex = m.currentKeyIndex
    ∧ m'.currentKeyIndex < m'.keys.length
    ∧ (getStatus m').quotaExceeded = true
    ∧ (getStatus m').isActive = false
    ∧ (getStatus m').lastError = some msg
    ∧ (getStatus m').resetTime = some (calculateResetTime now) := by
  have hrun2 : rotateGo now m.currentKeyIndex 0
      (setStatus m m.currentKeyIndex
        { getStatus m with quotaExceeded := true, isActive := false, lastError := some msg, resetTime := some (calculateResetTime now) }).keys.length
      (setStatus m m.currentKeyIndex
        { getStatus m with quotaExceeded := true, isActive := false, lastError := some msg, resetTime := some (calculateResetTime now) })
      = (m', .error .allExhausted) := hrun
  have hlen1 : (setStatus m m.currentKeyIndex
      { getStatus m with quotaExceeded := true, isActive := false, lastError := some msg, resetTime := some (calculateResetTime now) }).keys.length
      = m.keys.length := length_setNth m.keys m.currentKeyIndex _
  have hm' := rotateGo_error_curr now m.currentKeyIndex _ 0 _ m'
    (by rw [hlen1]; exact hlen)
    (by rw [Nat.add_zero, Nat.mod_eq_of_lt (by rw [hlen1]; exact hlen)]; rfl)
    (by rw [hlen1]; omega)
    rfl
    hrun2
  have hM : m' = setStatus m m.currentKeyIndex
      { getStatus m with quotaExceeded := true, isActive := false, lastError := some msg, resetTime := some (calculateResetTime now) } := hm'
  have hget : getStatus m' = { getStatus m with quotaExceeded := true, isActive := false, lastError := some msg, resetTime := some (calculateResetTime now) } := by
    rw [hM]
    exact nthKey_setNth_self m.keys m.currentKeyIndex _ hlen
  refine ⟨hM, by rw [hM]; rfl, ?_, ?_, ?_, ?_, ?_⟩
  · rw [hM]
    show m.currentKeyIndex < (setNth m.keys m.currentKeyIndex _).length
    rw [length_setNth]
    exact hlen
  · rw [hget]
  · rw [hget]
  · rw [hget]
  · rw [hget]

/-- A one-key pool about to be quota-marked. -/
def mgrC9 : ApiKeyManager := ⟨[mkActive ("k")], 0⟩

/-- Witness for C9: marking the only key of a one-key pool at time 0 throws,
and the post-throw state keeps the marking with the index still at 0. -/
theorem claim_C9_witness :
    (markCurrentKeyAsExhausted ("boom") 0 mgrC9).1
      = setStatus mgrC9 mgrC9.currentKeyIndex
          { getStatus mgrC9 with quotaExceeded := true, isActive := false, lastError := some ("boom"), resetTime := some (calculateResetTime 0) }
    ∧ (markCurrentKeyAsExhausted ("boom") 0 mgrC9).1.currentKeyIndex = mgrC9.currentKeyIndex
    ∧ (markCurrentKeyAsExhausted ("boom") 0 mgrC9).1.currentKeyIndex
        < (markCurrentKeyAsExhausted ("boom") 0 mgrC9).1.keys.length
    ∧ (getStatus (markCurrentKeyAsExhausted ("boom") 0 mgrC9).1).quotaExceeded = true
    ∧ (getStatus (markCurrentKeyAsExhausted ("boom") 0 mgrC9).1).isActive = false
    ∧ (getStatus (markCurrentKeyAsExhausted ("boom") 0 mgrC9).1).lastError = some ("boom")
    ∧ (getStatus (markCurrentKeyAsExhausted ("boom") 0 mgrC9).1).resetTime = some (calculateResetTime 0) :=
  claim_C9_marking_committed mgrC9 ("boom") 0 (markCurrentKeyAsExhausted ("boom") 0 mgrC9).1
    (by decide) (by rfl)

/-! ## C3: round-robin over the pool under consecutive quota reports -/

/-- Constructor-form restatement of the unfolded scan iteration. -/
theorem rotateGo_succ_mk (now start atts fuel : Nat) (ks : List KeyStatus) (ci : Nat) :
    rotateGo now start atts (fuel + 1) ⟨ks, ci⟩
      = (if (nthKey ks ((ci + 1) % ks.length)).isActive
            && !(nthKey ks ((ci + 1) % ks.length)).quotaExceeded then
           ((⟨ks, (ci + 1) % ks.length⟩ : ApiKeyManager),
            .ok (nthKey ks ((ci + 1) % ks.length)).key)
         else if (nthKey ks ((ci + 1) % ks.length)).quotaExceeded
            && shouldResetKey (nthKey ks ((ci + 1) % ks.length)) now then
           ((⟨setNth ks ((ci + 1) % ks.length) { nthKey ks ((ci + 1) % ks.length) with quotaExceeded := false, isActive := true, failCount := 0 }, (ci + 1) % ks.length⟩ : ApiKeyManager),
            .ok (nthKey ks ((ci + 1) % ks.length)).key)
         else if (ci + 1) % ks.length ≠ start ∧ atts + 1 < ks.length then
           rotateGo now start (atts + 1) fuel ⟨ks, (ci + 1) % ks.length⟩
         else
           ((⟨ks, (ci + 1) % ks.length⟩ : ApiKeyManager), .error .allExhausted)) := rfl

/-- Name at position `i` of the configured list. -/
def nthName : List String → Nat → String
  | [], _ => ""
  | s :: _, 0 => s
  | _ :: t, i + 1 => nthName t i

/-- The record a fresh key becomes after one quota marking at time `now`. -/
def exhAt (name msg : String) (now : Nat) : KeyStatus :=
  { key := name, isActive := false, failCount := 0, lastError := some msg,
    lastUsed := none, quotaExceeded := true, resetTime := some (calculateResetTime now) }

/-- The key list after the first `k` of the configured keys have been quota
marked (at one time `now`) and the rest are still fresh. -/
def rrKeys (msg : String) (now : Nat) : List String → Nat → List KeyStatus
  | [], _ => []
  | nm :: rest, 0 => mkActive nm :: rrKeys msg now rest 0
  | nm :: rest, k + 1 => exhAt nm msg now :: rrKeys msg now rest k

/-- The pool state after `k` consecutive `markCurrentKeyAsExhausted` calls. -/
def quotaCalls (msg : String) (now : Nat) : Nat → ApiKeyManager → ApiKeyManager
  | 0, m => m
  | k + 1, m => (markCurrentKeyAsExhausted msg now (quotaCalls msg now k m)).1

theorem length_rrKeys (msg : String) (now : Nat) :
    ∀ (names : List String) (k : Nat), (rrKeys msg now names k).length = names.length := by
  intro names
  induction names with
  | nil => intro k; cases k <;> rfl
  | cons nm rest ih =>
    intro k
    cases k with
    | zero => simpa [rrKeys] using ih 0
    | succ j => simpa [rrKeys] using ih j

theorem rrKeys_zero (msg : String) (now : Nat) :
    ∀ names : List String, rrKeys msg now names 0 = names.map mkActive := by
  intro names
  induction names with
  | nil => rfl
  | cons nm rest ih => simpa [rrKeys] using ih

theorem nthKey_rrKeys_ge (msg : String) (now : Nat) :
    ∀ (names : List String) (k i : Nat), k ≤ i → i < names.length →
      nthKey (rrKeys msg now names k) i = mkActive (nthName names i) := by
  intro names
  induction names with
  | nil => intro k i _ hi; simp at hi
  | cons nm rest ih =>
    intro k i hk hi
    cases k with
    | zero =>
      cases i with
      | zero => rfl
      | succ j => simpa [rrKeys, nthKey, nthName] using ih 0 j (Nat.zero_le j) (by simpa using hi)
    | succ kk =>
      cases i with
      | zero => omega
      | succ j =>
        simpa [rrKeys, nthKey, nthName] using ih kk j (by omega) (by simpa using hi)

theorem nthKey_rrKeys_lt (msg : String) (now : Nat) :
    ∀ (names : List String) (k i : Nat), i < k → i < names.length →
      nthKey (rrKeys msg now names k) i = exhAt (nthName names i) msg now := by
  intro names
  induction names with
  | nil => intro k i _ hi; simp at hi
  | cons nm rest ih =>
    intro k i hik hi
    cases k with
    | zero => omega
    | succ kk =>
      cases i with
      | zero => rfl
      | succ j =>
        simpa [rrKeys, nthKey, nthName] using ih kk j (by omega) (by simpa using hi)

theorem setNth_rrKeys (msg : String) (now : Nat) :
    ∀ (names : List String) (k : Nat), k < names.length →
      setNth (rrKeys msg now names k) k (exhAt (nthName names k) msg now)
        = rrKeys msg now names (k + 1) := by
  intro names
  induction names with
  | nil => intro k hk; simp at hk
  | cons nm rest ih =>
    intro k hk
    cases k with
    | zero => rfl
    | succ kk =>
      show exhAt nm msg now :: setNth (rrKeys msg now rest kk) kk (exhAt (nthName rest kk) msg now)
        = exhAt nm msg now :: rrKeys msg now rest (kk + 1)
      rw [ih kk (by simpa using hk)]

/-- One quota report in the middle of the round: key `k` is marked and the
scan selects the fresh key `k + 1` immediately. -/
theorem quota_step (msg : String) (now : Nat) (names : List String) (k : Nat)
    (hk : k + 1 < names.length) :
    markCurrentKeyAsExhausted msg now ⟨rrKeys msg now names k, k⟩
      = ((⟨rrKeys msg now names (k + 1), k + 1⟩ : ApiKeyManager),
         .ok (nthName names (k + 1))) := by
  have hklt : k < names.length := by omega
  have h1 : markCurrentKeyAsExhausted msg now ⟨rrKeys msg now names k, k⟩
      = rotateToNextKey now
          ⟨setNth (rrKeys msg now names k) k
            { nthKey (rrKeys msg now names k) k with quotaExceeded := true, isActive := false, lastError := some msg, resetTime := some (calculateResetTime now) }, k⟩ := rfl
  rw [h1, nthKey_rrKeys_ge msg now names k k le_rfl hklt]
  have h2 : { mkActive (nthName names k) with quotaExceeded := true, isActive := false, lastError := some msg, resetTime := some (calculateResetTime now) }
      = exhAt (nthName names k) msg now := rfl
  rw [h2, setNth_rrKeys msg now names k hklt]
  have h3 : rotateToNextKey now (⟨rrKeys msg now names (k + 1), k⟩ : ApiKeyManager)
      = rotateGo now k 0 (rrKeys msg now names (k + 1)).length ⟨rrKeys msg now names (k + 1), k⟩ := rfl
  obtain ⟨f, hfv⟩ : ∃ f, names.length = f + 1 := ⟨names.length - 1, by omega⟩
  rw [h3, length_rrKeys msg now names (k + 1), hfv, rotateGo_succ_mk,
    length_rrKeys msg now names (k + 1),
    Nat.mod_eq_of_lt hk, nthKey_rrKeys_ge msg now names (k + 1) (k + 1) le_rfl hk]
  rw [if_pos (show ((mkActive (nthName names (k + 1))).isActive && !(mkActive (nthName names (k + 1))).quotaExceeded) = true from rfl)]
  rfl

/-- A fully quota-marked key record is never eligible at the marking time:
its reset instant lies strictly in the future. -/
theorem exhAt_not_eligible (name msg : String) (now : Nat) :
    eligibleNow (exhAt name msg now) now = false := by
  have h := lt_calculateResetTime now
  simp [eligibleNow, exhAt, shouldResetKey]
  omega

/-- The quota report on the last fresh key: the marking commits, the scan
walks the full cycle of quota-marked keys (none has reached its reset
instant) and throws, index back on the just-marked key. -/
theorem quota_final (msg : String) (now : Nat) (names : List String)
    (hn : 0 < names.length) :
    markCurrentKeyAsExhausted msg now
        ⟨rrKeys msg now names (names.length - 1), names.length - 1⟩
      = ((⟨rrKeys msg now names names.length, names.length - 1⟩ : ApiKeyManager),
         .error .allExhausted) := by
  have hklt : names.length - 1 < names.length := by omega
  have h1 : markCurrentKeyAsExhausted msg now
        ⟨rrKeys msg now names (names.length - 1), names.length - 1⟩
      = rotateToNextKey now
          ⟨setNth (rrKeys msg now names (names.length - 1)) (names.length - 1)
            { nthKey (rrKeys msg now names (names.length - 1)) (names.length - 1) with quotaExceeded := true, isActive := false, lastError := some msg, resetTime := some (calculateResetTime now) },
           names.length - 1⟩ := rfl
  rw [h1, nthKey_rrKeys_ge msg now names (names.length - 1) (names.length - 1) le_rfl hklt]
  have h2 : { mkActive (nthName names (names.length - 1)) with quotaExceeded := true, isActive := false, lastError := some msg, resetTime := some (calculateResetTime now) }
      = exhAt (nthName names (names.length - 1)) msg now := rfl
  rw [h2, setNth_rrKeys msg now names (names.length - 1) hklt,
    show names.length - 1 + 1 = names.length from by omega]
  have h3 : rotateToNextKey now
        (⟨rrKeys msg now names names.length, names.length - 1⟩ : ApiKeyManager)
      = rotateGo now (names.length - 1) 0 (rrKeys msg now names names.length).length
          ⟨rrKeys msg now names names.length, names.length - 1⟩ := rfl
  rw [h3]
  have hall : ∀ i, i < (⟨rrKeys msg now names names.length, names.length - 1⟩ : ApiKeyManager).keys.length →
      eligibleNow (nthKey (⟨rrKeys msg now names names.length, names.length - 1⟩ : ApiKeyManager).keys i) now = false := by
    intro i hi
    have hi' : i < names.length := by
      simpa [length_rrKeys] using hi
    show eligibleNow (nthKey (rrKeys msg now names names.length) i) now = false
    rw [nthKey_rrKeys_lt msg now names names.length i hi' hi']
    exact exhAt_not_eligible (nthName names i) msg now
  have hstart : names.length - 1
      < (⟨rrKeys msg now names names.length, names.length - 1⟩ : ApiKeyManager).keys.length := by
    show names.length - 1 < (rrKeys msg now names names.length).length
    rw [length_rrKeys]
    omega
  have hcur : (⟨rrKeys msg now names names.length, names.length - 1⟩ : ApiKeyManager).currentKeyIndex
      = (names.length - 1 + 0) % (⟨rrKeys msg now names names.length, names.length - 1⟩ : ApiKeyManager).keys.length := by
    show names.length - 1 = (names.length - 1 + 0) % (rrKeys msg now names names.length).length
    rw [Nat.add_zero, length_rrKeys, Nat.mod_eq_of_lt hklt]
  have hfin := rotateGo_all_dead now (names.length - 1)
    (⟨rrKeys msg now names names.length, names.length - 1⟩ : ApiKeyManager).keys.length 0
    ⟨rrKeys msg now names names.length, names.length - 1⟩
    hstart hall hcur (by rw [show ((⟨rrKeys msg now names names.length, names.length - 1⟩ : ApiKeyManager).keys.length) = names.length from length_rrKeys msg now names names.length]; omega) rfl
  exact hfin

/-- Invariant of the round: after `k < N` consecutive quota reports starting
from the fresh pool, the first `k` keys are marked, the rest fresh, and the
current index is `k`. -/
theorem quotaCalls_state (msg : String) (now : Nat) (names : List String) :
    ∀ k, k < names.length →
      quotaCalls msg now k (mkPool names) = ⟨rrKeys msg now names k, k⟩ := by
  intro k
  induction k with
  | zero =>
    intro _
    show mkPool names = ⟨rrKeys msg now names 0, 0⟩
    rw [mkPool, rrKeys_zero]
  | succ k ih =>
    intro hk1
    show (markCurrentKeyAsExhausted msg now (quotaCalls msg now k (mkPool names))).1
      = (⟨rrKeys msg now names (k + 1), k + 1⟩ : ApiKeyManager)
    rw [ih (by omega), quota_step msg now names k hk1]

/-- Claim C3: from a pool of `N` fresh credentials with the current index at
0, consecutive `reportQuotaExhausted` calls walk the pool in order — after
`k < N` calls the current index is `k` (so the N reachable current
credentials `0, ..., N-1` are each visited exactly once), call `k + 1 < N`
hands out the key value of credential `k + 1`, and the `N`-th call, instead
of wrapping around onto an already-visited credential, throws
`AllCredentialsExhausted` — no credential is ever repeated. -/
theorem claim_C3_round_robin (names : List String) (msg : String) (now : Nat)
    (hn : 0 < names.length) :
    (∀ k, k < names.length →
      (quotaCalls msg now k (mkPool names)).currentKeyIndex = k)
    ∧ (∀ k, k + 1 < names.length →
      markCurrentKeyAsExhausted msg now (quotaCalls msg now k (mkPool names))
        = (quotaCalls msg now (k + 1) (mkPool names), .ok (nthName names (k + 1))))
    ∧ (markCurrentKeyAsExhausted msg now
        (quotaCalls msg now (names.length - 1) (mkPool names))).2
      = .error .allExhausted := by
  refine ⟨?_, ?_, ?_⟩
  · intro k hk
    rw [quotaCalls_state msg now names k hk]
  · intro k hk1
    rw [quotaCalls_state msg now names k (by omega), quota_step msg now names k hk1,
      quotaCalls_state msg now names (k + 1) hk1]
  · rw [quotaCalls_state msg now names (names.length - 1) (by omega),
      quota_final msg now names hn]

/-- Witness for C3 on a three-key pool: after one and two calls the index is
1 and 2, the first two calls hand out keys "b" then "c", and the third call
throws instead of repeating a credential. -/
theorem claim_C3_witness :
    (quotaCalls ("m") 0 1 (mkPool [("a"), ("b"), ("c")])).currentKeyIndex = 1
    ∧ (quotaCalls ("m") 0 2 (mkPool [("a"), ("b"), ("c")])).currentKeyIndex = 2
    ∧ markCurrentKeyAsExhausted ("m") 0 (quotaCalls ("m") 0 0 (mkPool [("a"), ("b"), ("c")]))
        = (quotaCalls ("m") 0 1 (mkPool [("a"), ("b"), ("c")]), .ok (nthName [("a"), ("b"), ("c")] 1))
    ∧ markCurrentKeyAsExhausted ("m") 0 (quotaCalls ("m") 0 1 (mkPool [("a"), ("b"), ("c")]))
        = (quotaCalls ("m") 0 2 (mkPool [("a"), ("b"), ("c")]), .ok (nthName [("a"), ("b"), ("c")] 2))
    ∧ (markCurrentKeyAsExhausted ("m") 0 (quotaCalls ("m") 0 2 (mkPool [("a"), ("b"), ("c")]))).2
        = .error .allExhausted :=
  ⟨(claim_C3_round_robin [("a"), ("b"), ("c")] ("m") 0 (by decide)).1 1 (by decide),
   (claim_C3_round_robin [("a"), ("b"), ("c")] ("m") 0 (by decide)).1 2 (by decide),
   (claim_C3_round_robin [("a"), ("b"), ("c")] ("m") 0 (by decide)).2.1 0 (by decide),
   (claim_C3_round_robin [("a"), ("b"), ("c")] ("m") 0 (by decide)).2.1 1 (by decide),
   (claim_C3_round_robin [("a"), ("b"), ("c")] ("m") 0 (by decide)).2.2⟩

/-! ## C1 and C5: orchestrator behaviour on quota-status and fatal errors -/

/-- Under a remote call that always fails with a 429/403-status error, every
round of the loop handles the error (the `try { handleApiError } catch {}`
swallows whatever the pool throws, `AllCredentialsExhausted` included) and
continues; all `maxRetries` attempts are made and the upstream error — never
a pool error — is what propagates. -/
theorem runLoop_const_fail (e : ApiError) (now : Nat)
    (hstat : e.respStatus = some 429 ∨ e.respStatus = some 403) :
    ∀ (k made : Nat) (le : Option ApiError) (m : ApiKeyManager),
      (runLoop (fun _ _ => Except.error e) now (k + 1) made le m).result = .error (some e)
      ∧ (runLoop (fun _ _ => Except.error e) now (k + 1) made le m).attempts = made + (k + 1) := by
  intro k
  induction k with
  | zero =>
    intro made le m
    have hstep : runLoop (fun _ _ => Except.error e) now 1 made le m
        = (if e.respStatus = some 429 ∨ e.respStatus = some 403 then
             (if 0 < 0 then
               runLoop (fun _ _ => Except.error e) now 0 (made + 1) (some e)
                 (handleApiError e now (getCurrentKey now m).1).1
              else
               ⟨(handleApiError e now (getCurrentKey now m).1).1, .error (some e), made + 1⟩)
           else ⟨(getCurrentKey now m).1, .error (some e), made + 1⟩) := rfl
    rw [hstep, if_pos hstat, if_neg (by omega)]
    exact ⟨rfl, rfl⟩
  | succ kk ih =>
    intro made le m
    have hstep : runLoop (fun _ _ => Except.error e) now (kk + 1 + 1) made le m
        = (if e.respStatus = some 429 ∨ e.respStatus = some 403 then
             (if 0 < kk + 1 then
               runLoop (fun _ _ => Except.error e) now (kk + 1) (made + 1) (some e)
                 (handleApiError e now (getCurrentKey now m).1).1
              else
               ⟨(handleApiError e now (getCurrentKey now m).1).1, .error (some e), made + 1⟩)
           else ⟨(getCurrentKey now m).1, .error (some e), made + 1⟩) := rfl
    rw [hstep, if_pos hstat, if_pos (by omega)]
    obtain ⟨h1, h2⟩ := ih (made + 1) (some e) (handleApiError e now (getCurrentKey now m).1).1
    exact ⟨h1, by rw [h2]; omega⟩

/-- Amended claim C1: when a pool transition raises `AllCredentialsExhausted`
during failure handling, `makeApiRequestWithKeyRotation` does NOT propagate
it — the `catch (e) { }` swallows it and, when attempts remain, the loop
continues with whatever credential the pool then points at (the same
exhausted one).  Stated over any run whose remote attempts all fail with a
quota-status (429/403) error, for any pool state — in particular pools on
which every failure handling throws `AllCredentialsExhausted`: all
`maxRetries` attempts are made and the last upstream error, never
`AllCredentialsExhausted`, reaches the caller. -/
theorem claim_C1_exhaustion_swallowed (e : ApiError)
    (hstat : e.respStatus = some 429 ∨ e.respStatus = some 403)
    (k : Nat) (m : ApiKeyManager) (now : Nat) :
    (makeApiRequestWithKeyRotation (fun _ _ => Except.error e) (k + 1) now m).result
      = .error (some e)
    ∧ (makeApiRequestWithKeyRotation (fun _ _ => Except.error e) (k + 1) now m).attempts
      = k + 1 := by
  obtain ⟨h1, h2⟩ := runLoop_const_fail e now hstat k 0 none m
  refine ⟨h1, ?_⟩
  show (runLoop (fun _ _ => Except.error e) now (k + 1) 0 none m).attempts = k + 1
  rw [h2]
  omega

/-- The upstream quota error used in the C1 scenario. -/
def e403 : ApiError := ⟨"quota exceeded", some 403, some 403, none⟩

/-- A one-key pool for the C1 scenario. -/
def mgrC1 : ApiKeyManager := ⟨[mkActive ("k0")], 0⟩

/-- Counterexample to claim C1 as stated: on a one-key pool whose remote call
keeps failing with a 403 quota error, the very first failure handling throws
`AllCredentialsExhausted` (first conjunct) — yet the orchestrator run with
`maxRetries = 3` performs all 3 attempts, retrying with the same exhausted
credential, and finally propagates the upstream 403 error, not
`AllCredentialsExhausted`. -/
theorem claim_C1_counterexample :
    (handleApiError e403 0 (getCurrentKey 0 mgrC1).1).2 = .error .allExhausted
    ∧ (makeApiRequestWithKeyRotation (fun _ _ => Except.error e403) 3 0 mgrC1).attempts = 3
    ∧ (makeApiRequestWithKeyRotation (fun _ _ => Except.error e403) 3 0 mgrC1).result
        = .error (some e403)
    ∧ (makeApiRequestWithKeyRotation (fun _ _ => Except.error e403) 3 0 mgrC1).mgr.currentKeyIndex
        = 0 :=
  ⟨rfl, rfl, rfl, rfl⟩

/-- Witness for the amended C1 at the concrete one-key scenario. -/
theorem claim_C1_witness :
    (makeApiRequestWithKeyRotation (fun _ _ => Except.error e403) 3 0 mgrC1).result
      = .error (some e403)
    ∧ (makeApiRequestWithKeyRotation (fun _ _ => Except.error e403) 3 0 mgrC1).attempts = 3 :=
  claim_C1_exhaustion_swallowed e403 (Or.inr rfl) 2 mgrC1 0

/-- Claim C5: a first attempt failing with an error that is Fatal — HTTP
status not 429/403 (so the rotation branch is not taken), not transient
(not 503), and classified neither quota nor invalid-credential — makes the
orchestrator propagate the error at once: exactly 1 remote attempt, no
rotation (index unchanged, no record but the current `lastUsed` stamp is
touched), no retry consumed. -/
theorem claim_C5_fatal_one_attempt (call : Nat → String → Except ApiError Nat)
    (m : ApiKeyManager) (now r : Nat) (e : ApiError)
    (h429 : e.respStatus ≠ some 429) (h403 : e.respStatus ≠ some 403)
    (h503 : e.respStatus ≠ some 503)
    (hq : isQuotaError e = false) (hinv : isInvalidKeyError e = false)
    (hcall : call 0 (getCurrentKey now m).2 = .error e) :
    makeApiRequestWithKeyRotation call (r + 1) now m
      = ⟨(getCurrentKey now m).1, .error (some e), 1⟩
    ∧ (getCurrentKey now m).1.currentKeyIndex = m.currentKeyIndex
    ∧ ∀ j, j ≠ m.currentKeyIndex → statusAt (getCurrentKey now m).1 j = statusAt m j := by
  refine ⟨?_, rfl, fun j hj => nthKey_setNth_ne m.keys m.currentKeyIndex j _ hj⟩
  show runLoop call now (r + 1) 0 none m = ⟨(getCurrentKey now m).1, .error (some e), 1⟩
  simp only [runLoop, hcall]
  rw [if_neg (fun hc => hc.elim h429 h403)]

/-- A fatal upstream error: HTTP 400, no quota or credential keyword. -/
def eFatal : ApiError := ⟨"bad request", some 400, some 400, none⟩

/-- A fresh two-key pool for the C5 scenario. -/
def mgrC5 : ApiKeyManager := mkPool [("a"), ("b")]

/-- Witness for C5: with a fatal 400 error on the first attempt and
`maxRetries = 3`, the run stops after exactly 1 attempt, rotates nothing,
and surfaces the error. -/
theorem claim_C5_witness :
    makeApiRequestWithKeyRotation (fun _ _ => Except.error eFatal) 3 7 mgrC5
      = ⟨(getCurrentKey 7 mgrC5).1, .error (some eFatal), 1⟩
    ∧ (getCurrentKey 7 mgrC5).1.currentKeyIndex = mgrC5.currentKeyIndex
    ∧ ∀ j, j ≠ mgrC5.currentKeyIndex → statusAt (getCurrentKey 7 mgrC5).1 j = statusAt mgrC5 j :=
  claim_C5_fatal_one_attempt (fun _ _ => Except.error eFatal) mgrC5 7 2 eFatal
    (by decide) (by decide) (by decide) (by decide) (by decide) rfl
